import Mathlib

/-!
Shallow embedding of the platext payslip extractor and verificator
(src/common.py and src/platext.py).

Numbers: Python ints are modelled as `Int`/`Nat`; Python floats are modelled
as exact rationals (`Rat`), with the float literals of the source
(0.45, 1.34, 0.15, 0.065, 0.045) taken at their decimal value.  Python
`round` is banker's rounding (round-half-to-even), modelled by `pyRound`.
Fallible code returns `Except PErr`.
-/

namespace Platext

/-- Errors raised by the embedded Python code paths: `KeyError` from
`index_in`, `IndexError` from out-of-range list indexing, `ValueError`
from `int()` / `float()`, and the re-raised `ValueError` of `taxblock`
naming the tax label and the two raw fragments. -/
inductive PErr where
  | keyError (needle : String)
  | indexError
  | valueError (raw : String)
  | valueErrorTax (key num1 num2 : String)
deriving DecidableEq

instance {ε α : Type} [DecidableEq ε] [DecidableEq α] : DecidableEq (Except ε α) := fun a b =>
  match a, b with
  | .ok x, .ok y => if h : x = y then isTrue (by rw [h]) else isFalse (by simp [h])
  | .error x, .error y => if h : x = y then isTrue (by rw [h]) else isFalse (by simp [h])
  | .ok _, .error _ => isFalse (by simp)
  | .error _, .ok _ => isFalse (by simp)

/-- Resolution of one Python slice boundary against a list length:
a negative index counts from the end, and the result is clamped to
`[0, len]`. -/
def sliceIdx (len : ℕ) (i : ℤ) : ℕ :=
  if i < 0 then ((len : ℤ) + i).toNat else min i.toNat len

/-- Python list slicing `l[a : b]` (step 1), with clamping and
negative-index wrapping; empty when the resolved start is at or past the
resolved stop. -/
def pySlice {α : Type} (l : List α) (a b : ℤ) : List α :=
  (l.take (sliceIdx l.length b)).drop (sliceIdx l.length a)

/-- Python list indexing `l[i]` for a nonnegative index: `IndexError` when
out of range.  (The embedded call sites only index with nonnegative
values, so the negative-wrapping case of Python indexing is not needed.) -/
def pyGet {α : Type} (l : List α) (i : ℕ) : Except PErr α :=
  match l[i]? with
  | some s => .ok s
  | none => .error .indexError

/-- Leading sign of a numeric token, as consumed by Python `int()` /
`float()`: returns (negative?, rest). -/
def stripSign (cs : List Char) : Bool × List Char :=
  match cs with
  | c :: rest =>
    if c = '-' then (true, rest)
    else if c = '+' then (false, rest)
    else (false, c :: rest)
  | [] => (false, [])

def allDigits (cs : List Char) : Bool := cs.all (fun c => c.isDigit)

def digitVal (c : Char) : ℕ := c.toNat - 48

/-- Value of a most-significant-digit-first string of decimal digits. -/
def digitsVal (cs : List Char) : ℕ := cs.foldl (fun a c => 10 * a + digitVal c) 0

def applySign (neg : Bool) (q : ℚ) : ℚ := if neg then -q else q

/-- Python `float()` on a decimal token over the characters
digits / `.` / sign (the alphabet that `clean_num` feeds it): an optional
leading sign, then digits with at most one decimal point and at least one
digit.  Exponent notation, underscores, inf and nan are not modelled; they
cannot arise from the payslip number formats handled here. -/
def pyFloat (cs : List Char) : Option ℚ :=
  let neg := (stripSign cs).1
  let body := (stripSign cs).2
  let ip := body.takeWhile (fun c => c ≠ '.')
  match body.dropWhile (fun c => c ≠ '.') with
  | [] =>
    if allDigits ip && !ip.isEmpty then
      some (applySign neg (digitsVal ip))
    else none
  | _ :: fp =>
    if allDigits ip && allDigits fp && (!ip.isEmpty || !fp.isEmpty) then
      some (applySign neg ((digitsVal ip : ℚ) + (digitsVal fp : ℚ) / 10 ^ fp.length))
    else none

/-- Python 3 `round()` to an integer: round half to even. -/
def pyRound (q : ℚ) : ℤ :=
  let f := ⌊q⌋
  if q - f < 1/2 then f
  else if 1/2 < q - f then f + 1
  else if f % 2 = 0 then f else f + 1

/-- The character list of `text.replace(' ', '').replace(',', '.')`:
every space removed, then every comma replaced by a decimal point. -/
def normalize_amount (s : String) : List Char :=
  (s.toList.filter (fun c => c ≠ ' ')).map (fun c => if c = ',' then '.' else c)

/-- `common.clean_num`: `round(float(text.replace(' ', '').replace(',', '.')))`. -/
def clean_num (s : String) : Except PErr ℤ :=
  match pyFloat (normalize_amount s) with
  | some q => .ok (pyRound q)
  | none => .error (.valueError s)

/-- Python `int()` on a string: optional surrounding spaces, an optional
sign, then at least one digit.  (Underscore digit separators are not
modelled.) -/
def pyInt (s : String) : Except PErr ℤ :=
  let cs := ((s.toList.dropWhile (fun c => c = ' ')).reverse.dropWhile (fun c => c = ' ')).reverse
  let neg := (stripSign cs).1
  let ds := (stripSign cs).2
  if allDigits ds && !ds.isEmpty then
    .ok (if neg then -(digitsVal ds : ℤ) else (digitsVal ds : ℤ))
  else .error (.valueError s)

/-- Python `str.split(sep)` for a one-character separator: the list of
(possibly empty) chunks between occurrences of `sep`; never empty. -/
def pySplit (sep : Char) : List Char → List (List Char)
  | [] => [[]]
  | c :: cs =>
    if c = sep then [] :: pySplit sep cs
    else
      match pySplit sep cs with
      | g :: gs => (c :: g) :: gs
      | [] => [[c]]

/-- `common.clean_hours`: `int(text.split(':')[0])`. -/
def clean_hours (s : String) : Except PErr ℤ :=
  pyInt (String.mk ((pySplit ':' s.toList).headD []))

/-- Python substring containment `needle in hay`. -/
def containsSub (hay needle : String) : Bool :=
  hay.toList.tails.any (fun t => needle.toList.isPrefixOf t)

/-- Anchor texts of src/platext.py. -/
def TEXT_TELEFON := "Telefon: 225 335 126"
def TEXT_SICK := "Sick payments"
def TEXT_11 := "1/1"
def TEXT_BASE := "Base salary"
def TEXT_HOLIDAY_BALANCE := "Holiday balance"
def TEXT_ILLNESS := "Illness"
def TEXT_TAX_BASE := "Tax base"
def TEXT_TAX_ADVANCE := "Tax advance"
def TEXT_TAX_RELIEF := "Tax relief(ยง35ba)"
def TEXT_TAX_AFTER_RELIEF := "Tax after relief (ยง35ba)"
def TEXT_TAX_INCOME := "Tax withheld"
def TEXT_TAX_ANNUAL := "Annual Tax Reconciliation"
def TEXT_TAX_SOCIAL := "Social security"
def TEXT_TAX_HEALTH := "Health insurance"
def TEXT_TAX_RELIEF_TP := "Tax relief - taxpayer"
def TEXT_TAX_MEALS := "Deduction - meals"
def TEXT_TAX_TRAVEL := "Travel Expenses"

/-- The ten recognized tax-category labels, in document-canonical order. -/
def taxblock_fields : List String :=
  [TEXT_TAX_ADVANCE, TEXT_TAX_RELIEF, TEXT_TAX_AFTER_RELIEF, TEXT_TAX_INCOME,
   TEXT_TAX_ANNUAL, TEXT_TAX_SOCIAL, TEXT_TAX_HEALTH, TEXT_TAX_RELIEF_TP,
   TEXT_TAX_MEALS, TEXT_TAX_TRAVEL]

/-- `IncomeExtractor.index_in`: index of the first line containing `needle`
as a substring; `KeyError` when absent. -/
def index_in (lines : List String) (needle : String) : Except PErr ℕ :=
  match lines.findIdx? (fun hay => containsSub hay needle) with
  | some i => .ok i
  | none => .error (.keyError needle)

/-- `IncomeExtractor.isin`: 1 when the anchor is present, 0 otherwise
(the source returns the ints 1/0 and uses them in offset arithmetic). -/
def isin (lines : List String) (t : String) : ℕ :=
  match index_in lines t with
  | .ok _ => 1
  | .error _ => 0

/-- `IncomeExtractor.taxblock_keys`: the recognized labels whose anchor
text is present in the document, in canonical order. -/
def taxblock_keys (lines : List String) : List String :=
  taxblock_fields.filter (fun f => isin lines f != 0)

/-- `IncomeExtractor.variable_number`. -/
def variable_number (lines : List String) : ℕ := (taxblock_keys lines).length

/-- `IncomeExtractor.exception_may`:
`index_in(TEXT_SICK) < index_in(TEXT_TAX_SOCIAL)`; either lookup may raise
`KeyError`. -/
def exception_may (lines : List String) : Except PErr Bool := do
  let a ← index_in lines TEXT_SICK
  let b ← index_in lines TEXT_TAX_SOCIAL
  pure (a < b)

/-- The two region bounds `ind_var1`, `ind_var2` computed by
`IncomeExtractor.taxblock` (after the `ind_sick` / `ind_11` /
`exception_may` lookups, each of which may raise `KeyError`). -/
def taxblockIndices (lines : List String) : Except PErr (ℤ × ℤ) := do
  let ind_sick ← index_in lines TEXT_SICK
  let ind_11 ← index_in lines TEXT_11
  let exc ← exception_may lines
  let ind_var1 : ℤ :=
    if exc then (ind_sick : ℤ) + 19
    else (ind_sick : ℤ) + 6 + (isin lines TEXT_TAX_ANNUAL : ℤ)
  let ind_var2 : ℤ :=
    (ind_11 : ℤ) - 3 - (isin lines TEXT_TELEFON : ℤ) * 2 - (variable_number lines : ℤ)
  pure (ind_var1, ind_var2)

/-- The `variables_2` slice of `IncomeExtractor.taxblock`: the
right-column value region, `lines[ind_var2 : ind_var2 + varnum]`
(empty when the positioning anchors are missing). -/
def taxblockRegion (lines : List String) : List String :=
  match taxblockIndices lines with
  | .ok (_, i2) => pySlice lines i2 (i2 + (variable_number lines : ℤ))
  | .error _ => []

/-- One row of the tax block: `clean_num(num1 + num2)`, re-raising a parse
failure as a `ValueError` naming the label and the raw fragments. -/
def taxblockRow (key num1 num2 : String) : Except PErr ℤ :=
  match clean_num (num1 ++ num2) with
  | .ok v => .ok v
  | .error _ => .error (.valueErrorTax key num1 num2)

/-- The dict-building loop of `IncomeExtractor.taxblock`: left to right,
stopping at the first failing row. -/
def taxRows : List (String × String × String) → Except PErr (List (String × ℤ))
  | [] => .ok []
  | (k, n1, n2) :: rest =>
    match taxblockRow k n1 n2 with
    | .error e => .error e
    | .ok v =>
      match taxRows rest with
      | .error e => .error e
      | .ok d => .ok ((k, v) :: d)

def zip3 {α β γ : Type} (a : List α) (b : List β) (c : List γ) : List (α × β × γ) :=
  a.zip (b.zip c)

/-- The computation body of `IncomeExtractor.taxblock` (without the
memoization): keys from presence scanning, the two column slices, the
right-padding of the left column, and the zipped parse.  The result is
the insertion-ordered dict as an association list. -/
def taxblock (lines : List String) : Except PErr (List (String × ℤ)) :=
  match taxblockIndices lines with
  | .error e => .error e
  | .ok (ind_var1, ind_var2) =>
    let keys := taxblock_keys lines
    let varnum := variable_number lines
    let v1 := pySlice lines ind_var1 ind_var2
    let v2 := pySlice lines ind_var2 (ind_var2 + (varnum : ℤ))
    let v1p := v1 ++ List.replicate (v2.length - v1.length) ""
    taxRows (zip3 keys v1p v2)

/-- Extractor state: the document lines plus the `_taxblock` memo slot
(absent before the first successful call). -/
structure Extractor where
  lines : List String
  tb_cache : Option (List (String × ℤ))

/-- The compute-and-store path of `IncomeExtractor.taxblock`: on success
the result is written to `_taxblock`; on an exception nothing is stored. -/
def taxblockStore (e : Extractor) : Except PErr (List (String × ℤ)) × Extractor :=
  match taxblock e.lines with
  | .ok d => (.ok d, { e with tb_cache := some d })
  | .error err => (.error err, e)

/-- `IncomeExtractor.taxblock` with its memoization:
`getattr(self, '_taxblock', None)` is truthy only when it holds a
nonempty dict, in which case it is returned; otherwise the block is
(re)computed. -/
def taxblockMemo (e : Extractor) : Except PErr (List (String × ℤ)) × Extractor :=
  match e.tb_cache with
  | some d => if d = [] then taxblockStore e else (.ok d, e)
  | none => taxblockStore e

/-- Python `str.startswith`, via character lists so that concrete
documents evaluate in the kernel. -/
def pyStartsWith (s pre : String) : Bool := pre.toList.isPrefixOf s.toList

/-- The regex `^Holiday [\d,]+d` under `re.match`: the prefix
"Holiday ", then a nonempty run of digits/commas, then the letter d.
Since d is not in the digit/comma class, matching is equivalent to: the
maximal digit/comma run after the prefix is nonempty and is followed by
the character d. -/
def re_holiday_match (s : String) : Bool :=
  pyStartsWith s "Holiday " &&
    (let t := s.toList.drop 8
     let j := (t.takeWhile (fun c => c.isDigit || c = ',')).length
     decide (1 ≤ j) && (t.getD j ' ' = 'd'))

/-- `any(regex.match(line) for regex in self.res_holidays)`: the five
entry-classification patterns (holiday, unpaid leave `^Omluv.*`,
`^Base salary`, `^Bonus CZK`, `^Summer vacation pay`), all anchored
prefix matches. -/
def matchesAny (s : String) : Bool :=
  re_holiday_match s || pyStartsWith s "Omluv" || pyStartsWith s "Base salary" ||
    pyStartsWith s "Bonus CZK" || pyStartsWith s "Summer vacation pay"

/-- The Variant A run scan (`for i in count(ind_base): ...`), on the
document suffix starting at the scan origin: `some n` when the first
non-matching line is `n` lines in; `none` when every remaining line
matches, in which case the Python loop indexes one past the end and
raises `IndexError`. -/
def runLenA : List String → Option ℕ
  | [] => none
  | s :: rest => if matchesAny s then (runLenA rest).map (· + 1) else some 0

/-- The Variant B fixed-stride scan, on the document suffix starting at
the scan origin: while the group head matches, record
(head, "0:0fake", third line of the group) and advance four lines.
Reading past the end of the document (the group head when the suffix is
exhausted, or the group's third line) is an `IndexError`. -/
def scanBList : List String → Except PErr (List (String × String × String))
  | [] => .error .indexError
  | s :: rest =>
    if matchesAny s then
      match rest with
      | _ :: cash :: rest2 =>
        match rest2 with
        | _ :: rest3 =>
          match scanBList rest3 with
          | .ok es => .ok ((s, "0:0fake", cash) :: es)
          | .error e => .error e
        | [] => .error .indexError
      | _ => .error .indexError
    else .ok []

/-- `IncomeExtractor.holidayblock`: probe the line after the Illness
anchor; when it is not the `Base salary` header, parse the fallback
Variant B fixed-stride layout from two lines after the `Tax base`
anchor; otherwise measure the Variant A run and cut the three
run-length-dependent column slices. -/
def holidayblock (lines : List String) : Except PErr (List (String × String × String)) :=
  match index_in lines TEXT_ILLNESS with
  | .error e => .error e
  | .ok ind_ill =>
    let ind_base := ind_ill + 1
    match pyGet lines ind_base with
    | .error e => .error e
    | .ok probe =>
      if probe ≠ TEXT_BASE then
        match index_in lines TEXT_TAX_BASE with
        | .error e => .error e
        | .ok ind_tb => scanBList (lines.drop (ind_tb + 2))
      else
        match runLenA (lines.drop ind_base) with
        | none => .error .indexError
        | some n =>
          match index_in lines TEXT_HOLIDAY_BALANCE with
          | .error e => .error e
          | .ok ind_hol =>
            match index_in lines TEXT_TAX_ADVANCE with
            | .error e => .error e
            | .ok ind_adv =>
              let desc := pySlice lines (ind_base : ℤ) ((ind_base : ℤ) + n)
              let hours := pySlice lines ((ind_hol : ℤ) + 3 + n) ((ind_hol : ℤ) + 3 + 2 * n)
              let cash := pySlice lines ((ind_adv : ℤ) - n - 1) ((ind_adv : ℤ) - 1)
              .ok (zip3 desc hours cash)

/-- The accumulation loop of `IncomeExtractor.hours_holiday`: sum
`clean_hours(hours)` over the entries whose description matches the
holiday pattern, propagating a parse failure. -/
def hoursFold : List (String × String × String) → ℤ → Except PErr ℤ
  | [], acc => .ok acc
  | (desc, hours, _) :: rest, acc =>
    if re_holiday_match desc then
      match clean_hours hours with
      | .ok h => hoursFold rest (acc + h)
      | .error e => .error e
    else hoursFold rest acc

/-- `IncomeExtractor.hours_holiday`. -/
def hours_holiday (lines : List String) : Except PErr ℤ :=
  match holidayblock lines with
  | .ok hb => hoursFold hb 0
  | .error e => .error e

/-- The extracted fields that `IncomeVerificator` reads from its
`IncomeExtractor`.  Fields the verification formulas index
unconditionally are total (`tax_income`, `tax_social`, `tax_health`,
`tax_meal`); the two the source guards with `x if x else 0`
(`tax_recon`, `tax_travel`) are optional. -/
structure Fields where
  base : ℤ
  bank : ℤ
  gross : ℤ
  net : ℤ
  hours_exepected : ℤ
  hours_worked : ℤ
  hours_holiday_list : List ℤ
  bonuses : ℤ
  average_earnings : ℚ
  tax_advance : ℤ
  tax_income : ℤ
  tax_social : ℤ
  tax_health : ℤ
  tax_meal : ℤ
  tax_recon : Option ℤ
  tax_travel : Option ℤ

/-- A (category, claimed, calculated) verification triple. -/
structure Triple where
  category : String
  claimed : ℚ
  calculated : ℚ

/-- Python `x if x else 0` on an optional amount: absent or zero gives 0. -/
def orElseZero (o : Option ℤ) : ℤ :=
  match o with
  | none => 0
  | some x => if x = 0 then 0 else x

/-- Verificator constants (`IncomeVerificator.__init__`). -/
def daily_meal : ℚ := 80
def meal_contribution : ℚ := 45/100
def factor_supergross : ℚ := 134/100
def factor_tax_income : ℚ := 15/100
def factor_tax_social : ℚ := 65/1000
def factor_tax_health : ℚ := 45/1000
def tax_relief : ℚ := 2070

/-- `IncomeVerificator.verify_gross`. -/
def verify_gross (f : Fields) : Triple :=
  let holiday_money : ℤ :=
    (f.hours_holiday_list.map (fun (hours : ℤ) => pyRound ((hours : ℚ) * f.average_earnings))).sum
  let my_gross : ℤ :=
    pyRound ((f.hours_worked : ℚ) / (f.hours_exepected : ℚ) * (f.base : ℚ)
      + (holiday_money : ℚ) + (f.bonuses : ℚ))
  ⟨"Gross", (f.gross : ℚ), (my_gross : ℚ)⟩

/-- The `ceil100` helper of `IncomeVerificator.verify_tax_income_raw`:
`100 * ceil(x / 100)`. -/
def ceil100 (x : ℚ) : ℤ := 100 * ⌈x / 100⌉

/-- `IncomeVerificator.verify_tax_income_raw`. -/
def verify_tax_income_raw (f : Fields) : Triple :=
  let supergross : ℤ := ceil100 ((f.gross : ℚ) * factor_supergross)
  ⟨"Tax-advance", (f.tax_advance : ℚ), (supergross : ℚ) * factor_tax_income⟩

/-- `IncomeVerificator.verify_tax_income_relief`: the calculated value is
the claimed tax advance minus the relief constant. -/
def verify_tax_income_relief (f : Fields) : Triple :=
  ⟨"Tax-income", (f.tax_income : ℚ), (f.tax_advance : ℚ) - tax_relief⟩

/-- `IncomeVerificator.verify_tax_social`. -/
def verify_tax_social (f : Fields) : Triple :=
  ⟨"Tax-social", (f.tax_social : ℚ), (⌈(f.gross : ℚ) * factor_tax_social⌉ : ℤ)⟩

/-- `IncomeVerificator.verify_tax_health`. -/
def verify_tax_health (f : Fields) : Triple :=
  ⟨"Tax-health", (f.tax_health : ℚ), (⌈(f.gross : ℚ) * factor_tax_health⌉ : ℤ)⟩

/-- `IncomeVerificator.verify_net`: gross minus the three taxes and the
reconciliation adjustment when present; travel expenses do not appear. -/
def verify_net (f : Fields) : Triple :=
  let recon := orElseZero f.tax_recon
  let taxes := f.tax_income + f.tax_social + f.tax_health + recon
  ⟨"Net", (f.net : ℚ), ((f.gross - taxes : ℤ) : ℚ)⟩

/-- `IncomeVerificator.verify_bank`: net minus the meal deduction and the
travel expenses when present. -/
def verify_bank (f : Fields) : Triple :=
  let tax_travel := orElseZero f.tax_travel
  ⟨"Bank", (f.bank : ℚ), ((f.net - f.tax_meal - tax_travel : ℤ) : ℚ)⟩

/-- A printable verification row
(name, status, difference, claimed, calculated). -/
structure Printable where
  name : String
  status : String
  difference : Option ℚ
  claimed : ℚ
  calculated : ℚ

/-- `IncomeVerificator._verification_tuple_to_printable`: OK on exact
equality (with no difference); otherwise FAIL, downgraded to WARN for the
categories in `only_warns = ['Meal contrib.']`, with
difference = claimed - calculated. -/
def verification_tuple_to_printable (r : Triple) : Printable :=
  let err_msg := if r.category ∈ ["Meal contrib."] then "WARN" else "FAIL"
  let status := if r.claimed = r.calculated then "OK" else err_msg
  let difference : Option ℚ :=
    if r.claimed = r.calculated then none else some (r.claimed - r.calculated)
  ⟨r.category, status, difference, r.claimed, r.calculated⟩

/-- The character of one decimal digit. -/
def digitChar (d : ℕ) : Char := Char.ofNat (48 + d)

/-- The decimal digit characters of a natural number, most significant
first ("0" for zero). -/
def natDigits (n : ℕ) : List Char :=
  if n = 0 then ['0'] else ((Nat.digits 10 n).map digitChar).reverse

/-- Insertion of the Czech thousands separator (a space) every three
digits, on a least-significant-first digit list. -/
def group3Rev : List Char → List Char
  | a :: b :: c :: d :: rest => a :: b :: c :: ' ' :: group3Rev (d :: rest)
  | l => l

/-- Modelled from the spec: the `format_czk_style` helper named by the
round-trip property is absent from src/ (it belongs to the spec's test
suite).  Czech locale style per the spec: a space as thousands separator
and a comma as decimal separator, here with the two zero decimals of the
payslip format ("12 345,00") or none ("1 234"); a minus sign for
negatives. -/
def format_czk_style (x : ℤ) (withDecimals : Bool) : String :=
  (if x < 0 then "-" else "")
    ++ String.mk ((group3Rev (natDigits x.natAbs).reverse).reverse)
    ++ (if withDecimals then ",00" else "")

/-- The spec's "numeric token" notion for the amount parser, stated
independently of `pyFloat`: after an optional sign, digits with at most
one decimal point and at least one digit somewhere. -/
def isNumericChars (cs : List Char) : Bool :=
  let body := (stripSign cs).2
  let ip := body.takeWhile (fun c => c ≠ '.')
  match body.dropWhile (fun c => c ≠ '.') with
  | [] => allDigits ip && !ip.isEmpty
  | _ :: fp => allDigits ip && allDigits fp && (!ip.isEmpty || !fp.isEmpty)

theorem ne_of_isDigit {c x : Char} (hx : x.isDigit = false) (h : c.isDigit = true) : c ≠ x := by
  intro e
  rw [e, hx] at h
  cases h

theorem all_ne_of_allDigits {x : Char} (hx : x.isDigit = false) {l : List Char}
    (h : allDigits l = true) : l.all (fun c => c ≠ x) = true := by
  rw [allDigits, List.all_eq_true] at h
  rw [List.all_eq_true]
  intro c hc
  simpa using ne_of_isDigit hx (h c hc)

theorem stripSign_cons_digit {c : Char} (cs : List Char) (hc : c.isDigit = true) :
    stripSign (c :: cs) = (false, c :: cs) := by
  rw [stripSign, if_neg (ne_of_isDigit (by decide) hc), if_neg (ne_of_isDigit (by decide) hc)]

theorem takeWhile_all_eq {p : Char → Bool} {l : List Char} (h : l.all p = true) :
    l.takeWhile p = l :=
  List.takeWhile_eq_self_iff.mpr (List.all_eq_true.mp h)

theorem dropWhile_all_eq_nil {p : Char → Bool} {l : List Char} (h : l.all p = true) :
    l.dropWhile p = [] :=
  List.dropWhile_eq_nil_iff.mpr (List.all_eq_true.mp h)

theorem takeWhile_append_all {p : Char → Bool} : ∀ (l m : List Char), l.all p = true →
    (l ++ m).takeWhile p = l ++ m.takeWhile p
  | [], _, _ => rfl
  | c :: l, m, h => by
    rw [List.all_cons, Bool.and_eq_true] at h
    simp only [List.cons_append, List.takeWhile_cons, h.1, if_true]
    rw [takeWhile_append_all l m h.2]

theorem dropWhile_append_all {p : Char → Bool} : ∀ (l m : List Char), l.all p = true →
    (l ++ m).dropWhile p = m.dropWhile p
  | [], _, _ => rfl
  | c :: l, m, h => by
    rw [List.all_cons, Bool.and_eq_true] at h
    simp only [List.cons_append, List.dropWhile_cons, h.1, if_true]
    exact dropWhile_append_all l m h.2

theorem pyFloat_digits {l : List Char} (h1 : allDigits l = true) (h2 : l ≠ []) :
    pyFloat l = some ((digitsVal l : ℕ) : ℚ) := by
  have hs : stripSign l = (false, l) := by
    cases l with
    | nil => exact absurd rfl h2
    | cons c cs =>
      rw [allDigits, List.all_cons, Bool.and_eq_true] at h1
      exact stripSign_cons_digit cs h1.1
  have hne : l.all (fun c => c ≠ '.') = true := all_ne_of_allDigits (by decide) h1
  rw [pyFloat]
  rw [hs]
  simp only [takeWhile_all_eq hne, dropWhile_all_eq_nil hne]
  rw [if_pos]
  · rw [applySign]
    simp
  · rw [h1]
    simp [h2]

theorem pyFloat_digits_frac {l1 l2 : List Char} (h1 : allDigits l1 = true)
    (h2 : allDigits l2 = true) (h3 : l1 ≠ []) :
    pyFloat (l1 ++ '.' :: l2)
      = some ((digitsVal l1 : ℚ) + (digitsVal l2 : ℚ) / 10 ^ l2.length) := by
  have hs : stripSign (l1 ++ '.' :: l2) = (false, l1 ++ '.' :: l2) := by
    cases l1 with
    | nil => exact absurd rfl h3
    | cons c cs =>
      rw [allDigits, List.all_cons, Bool.and_eq_true] at h1
      exact stripSign_cons_digit _ h1.1
  have hne : l1.all (fun c => c ≠ '.') = true := all_ne_of_allDigits (by decide) h1
  rw [pyFloat]
  rw [hs]
  simp only [takeWhile_append_all _ _ hne, dropWhile_append_all _ _ hne,
    List.takeWhile_cons, List.dropWhile_cons]
  norm_num
  exact ⟨⟨⟨h1, h2⟩, Or.inl h3⟩, by rw [applySign]; simp⟩

theorem pyRound_intCast (n : ℤ) : pyRound ((n : ℤ) : ℚ) = n := by
  rw [pyRound]
  norm_num [Int.floor_intCast]

theorem pyRound_natCast (n : ℕ) : pyRound ((n : ℕ) : ℚ) = (n : ℤ) := by
  have h := pyRound_intCast (n : ℤ)
  rw [← h]
  norm_num

theorem clean_num_digits (s : String) (h1 : allDigits (normalize_amount s) = true)
    (h2 : normalize_amount s ≠ []) :
    clean_num s = .ok ((digitsVal (normalize_amount s) : ℕ) : ℤ) := by
  rw [clean_num, pyFloat_digits h1 h2]
  show Except.ok (pyRound ((digitsVal (normalize_amount s) : ℕ) : ℚ)) = _
  rw [pyRound_natCast]

theorem pySplit_ne_nil (sep : Char) : ∀ (cs : List Char), pySplit sep cs ≠ []
  | [] => by simp [pySplit]
  | c :: cs => by
    by_cases h : c = sep
    · simp [pySplit, h]
    · simp only [pySplit, if_neg h]
      cases hs : pySplit sep cs with
      | nil => exact absurd hs (pySplit_ne_nil sep cs)
      | cons g gs => simp

theorem pySplit_headD (sep : Char) : ∀ (cs : List Char),
    (pySplit sep cs).headD [] = cs.takeWhile (fun c => c ≠ sep)
  | [] => rfl
  | c :: cs => by
    by_cases h : c = sep
    · simp [pySplit, h, List.takeWhile_cons]
    · simp only [pySplit, if_neg h]
      cases hs : pySplit sep cs with
      | nil => exact absurd hs (pySplit_ne_nil sep cs)
      | cons g gs =>
        have ih := pySplit_headD sep cs
        rw [hs, List.headD_cons] at ih
        subst ih
        simp [List.takeWhile_cons, h]

/-- C2 (amended): the hours parser returns the Python int() parse of the
token prefix before the first colon — the whole token when no colon is
present, so a colon-free token fails only when it is not itself an
integer literal — and the boundary token "160:00fake" parses to 160. -/
theorem C2_hours_before_colon (s : String) :
    clean_hours s = pyInt (String.mk (s.toList.takeWhile (fun c => c ≠ ':'))) ∧
    clean_hours "160:00fake" = .ok 160 :=
  ⟨by rw [clean_hours, pySplit_headD], by decide⟩

/-- C2 counterexample: the claim says a token with no colon fails with a
ParseError, but `clean_hours "42"` succeeds and returns 42. -/
theorem C2_counterexample : clean_hours "42" = .ok 42 := by decide

theorem intCast_list_sum (l : List ℤ) :
    ((l.sum : ℤ) : ℚ) = (l.map (fun (z : ℤ) => (z : ℚ))).sum := by
  induction l with
  | nil => simp
  | cons a t ih => simp [ih]

/-- C4: the recomputed gross is
round(worked / expected × base + Σ round(hours_i × average) + bonuses),
and the Gross triple pairs the claimed gross from the document with it. -/
theorem C4_gross_formula (f : Fields) :
    (verify_gross f).category = "Gross" ∧
    (verify_gross f).claimed = (f.gross : ℚ) ∧
    (verify_gross f).calculated =
      ((pyRound ((f.hours_worked : ℚ) / (f.hours_exepected : ℚ) * (f.base : ℚ)
          + (f.hours_holiday_list.map
              (fun (h : ℤ) => ((pyRound ((h : ℚ) * f.average_earnings) : ℤ) : ℚ))).sum
          + (f.bonuses : ℚ)) : ℤ) : ℚ) := by
  refine ⟨rfl, rfl, ?_⟩
  simp only [verify_gross, intCast_list_sum, List.map_map]
  rfl

/-- C5: a verification row is OK exactly on equal claimed and calculated
values, with no difference; otherwise the status is FAIL — WARN and
never FAIL for the meal-contribution category — and the difference is
claimed minus calculated. -/
theorem C5_status_classification (t : Triple) :
    ((verification_tuple_to_printable t).status = "OK" ↔ t.claimed = t.calculated) ∧
    (t.claimed = t.calculated → (verification_tuple_to_printable t).difference = none) ∧
    (t.claimed ≠ t.calculated →
      (verification_tuple_to_printable t).difference = some (t.claimed - t.calculated) ∧
      (verification_tuple_to_printable t).status =
        (if t.category = "Meal contrib." then "WARN" else "FAIL")) ∧
    (t.category = "Meal contrib." → (verification_tuple_to_printable t).status ≠ "FAIL") := by
  by_cases h : t.claimed = t.calculated <;>
    by_cases hc : t.category = "Meal contrib." <;>
      simp [verification_tuple_to_printable, h, hc]

/-- C5 witness: an unequal meal-contribution row is classified WARN with
the exact difference. -/
theorem C5_status_classification_witness :
    (verification_tuple_to_printable ⟨"Meal contrib.", 5, 3⟩).status = "WARN" ∧
    (verification_tuple_to_printable ⟨"Meal contrib.", 5, 3⟩).difference = some 2 := by
  have h := (C5_status_classification ⟨"Meal contrib.", 5, 3⟩).2.2.1 (by norm_num)
  refine ⟨?_, ?_⟩
  · rw [h.2]; simp
  · rw [h.1]; norm_num

theorem orElseZero_eq_getD (o : Option ℤ) : orElseZero o = o.getD 0 := by
  cases o with
  | none => rfl
  | some x =>
    by_cases hx : x = 0
    · simp [orElseZero, hx]
    · simp [orElseZero, hx]

/-- C6: the recomputed net is gross minus the three taxes and the
reconciliation adjustment when present (zero when absent) and is
invariant under the travel-expense field, while the recomputed bank
transfer is net minus the meal deduction minus travel when present. -/
theorem C6_net_bank_formula (f : Fields) (t : Option ℤ) :
    (verify_net f).calculated =
      ((f.gross - (f.tax_income + f.tax_social + f.tax_health + f.tax_recon.getD 0) : ℤ) : ℚ) ∧
    verify_net { f with tax_travel := t } = verify_net f ∧
    (verify_bank f).calculated = ((f.net - f.tax_meal - f.tax_travel.getD 0 : ℤ) : ℚ) ∧
    (verify_net f).category = "Net" ∧ (verify_net f).claimed = (f.net : ℚ) ∧
    (verify_bank f).category = "Bank" ∧ (verify_bank f).claimed = (f.bank : ℚ) := by
  refine ⟨?_, rfl, ?_, rfl, rfl, rfl, rfl⟩
  · simp [verify_net, orElseZero_eq_getD]
  · simp [verify_bank, orElseZero_eq_getD]

/-- Concrete field set used to refute the withholding-minus-relief
reading of the adjusted income tax: gross 10000 gives a recomputed
withholding of 2010, while the claimed tax advance is 9999. -/
def f0 : Fields :=
  ⟨0, 0, 10000, 0, 0, 0, [], 0, 0, 9999, 0, 0, 0, 0, none, none⟩

/-- C7 counterexample: the code computes the adjusted income tax from the
claimed tax advance of the document, not from the recomputed withholding
tax: on `f0` the two disagree (7929 versus -60). -/
theorem C7_counterexample :
    (verify_tax_income_relief f0).calculated ≠
      (verify_tax_income_raw f0).calculated - tax_relief := by
  norm_num [verify_tax_income_relief, verify_tax_income_raw, f0, ceil100,
    tax_relief, factor_supergross, factor_tax_income]

/-- C7 (amended): the recomputed income-tax base is gross × 1.34 rounded
up to the next multiple of 100 (a multiple of 100 in [x, x + 100)), the
withholding tax is that base × 0.15, the adjusted income tax is the
CLAIMED tax advance minus the relief constant 2070, and the social and
health taxes are the ceilings of gross × 0.065 and gross × 0.045. -/
theorem C7_tax_formulas (f : Fields) :
    (100 : ℤ) ∣ ceil100 ((f.gross : ℚ) * factor_supergross) ∧
    (f.gross : ℚ) * factor_supergross ≤ ((ceil100 ((f.gross : ℚ) * factor_supergross) : ℤ) : ℚ) ∧
    ((ceil100 ((f.gross : ℚ) * factor_supergross) : ℤ) : ℚ)
      < (f.gross : ℚ) * factor_supergross + 100 ∧
    (verify_tax_income_raw f).calculated =
      ((ceil100 ((f.gross : ℚ) * factor_supergross) : ℤ) : ℚ) * factor_tax_income ∧
    (verify_tax_income_relief f).calculated = (f.tax_advance : ℚ) - tax_relief ∧
    (verify_tax_social f).calculated = ((⌈(f.gross : ℚ) * factor_tax_social⌉ : ℤ) : ℚ) ∧
    (verify_tax_health f).calculated = ((⌈(f.gross : ℚ) * factor_tax_health⌉ : ℤ) : ℚ) ∧
    (verify_tax_income_raw f).claimed = (f.tax_advance : ℚ) ∧
    (verify_tax_income_relief f).claimed = (f.tax_income : ℚ) ∧
    (verify_tax_social f).claimed = (f.tax_social : ℚ) ∧
    (verify_tax_health f).claimed = (f.tax_health : ℚ) := by
  set x : ℚ := (f.gross : ℚ) * factor_supergross with hx
  refine ⟨⟨⌈x / 100⌉, rfl⟩, ?_, ?_, rfl, rfl, rfl, rfl, rfl, rfl, rfl, rfl⟩
  · have h := Int.le_ceil (x / 100)
    have : ((ceil100 x : ℤ) : ℚ) = 100 * (⌈x / 100⌉ : ℚ) := by
      simp [ceil100]
    rw [this]
    linarith
  · have h := Int.ceil_lt_add_one (x / 100)
    have : ((ceil100 x : ℤ) : ℚ) = 100 * (⌈x / 100⌉ : ℚ) := by
      simp [ceil100]
    rw [this]
    linarith

/-- C9: starting from a fresh extractor, the memoized tax block returns
the pure computation, and a second call returns the same value — the
memoization (including the falsy empty-dict recomputation quirk) has no
observable effect. -/
theorem C9_taxblock_idempotent (lines : List String) :
    (taxblockMemo ⟨lines, none⟩).1 = taxblock lines ∧
    (taxblockMemo (taxblockMemo ⟨lines, none⟩).2).1 = (taxblockMemo ⟨lines, none⟩).1 := by
  cases h : taxblock lines with
  | error e => simp [taxblockMemo, taxblockStore, h]
  | ok d =>
    by_cases hd : d = []
    · subst hd; simp [taxblockMemo, taxblockStore, h]
    · simp [taxblockMemo, taxblockStore, h, hd]

theorem map_fst_zip_take {α β : Type} : ∀ (a : List α) (x : List β),
    (a.zip x).map Prod.fst = a.take x.length
  | [], x => by simp
  | p :: a, [] => by simp
  | p :: a, q :: x => by
    simp only [List.zip_cons_cons, List.map_cons, List.length_cons, List.take_succ_cons]
    rw [map_fst_zip_take a x]

theorem taxRows_map_fst : ∀ (rows : List (String × String × String)) (d : List (String × ℤ)),
    taxRows rows = .ok d → d.map Prod.fst = rows.map Prod.fst
  | [], d, h => by
    rw [taxRows] at h
    cases h
    simp
  | (k, n1, n2) :: rest, d, h => by
    rw [taxRows] at h
    cases hr : taxblockRow k n1 n2 with
    | error e => rw [hr] at h; cases h
    | ok v =>
      rw [hr] at h
      cases ht : taxRows rest with
      | error e => rw [ht] at h; cases h
      | ok d2 =>
        rw [ht] at h
        cases h
        simp only [List.map_cons]
        rw [taxRows_map_fst rest d2 ht]

/-- Document refuting C1 as stated: the label Social security is present
(so the claim demands exactly one entry or a failure), but the computed
value region `lines[-1 : 0]` is empty, the zip truncates, and the parser
silently returns an empty mapping. -/
def doc_c1 : List String := ["Sick payments", "Social security", "x", "1/1"]

/-- C1 counterexample: one recognized label is present in `doc_c1`, yet
the tax block parser returns an empty mapping and no error — it neither
returns one entry per present label nor fails on the short region. -/
theorem C1_counterexample :
    taxblock_keys doc_c1 = [TEXT_TAX_SOCIAL] ∧ taxblock doc_c1 = .ok [] := by
  constructor
  · decide
  · have hI : taxblockIndices doc_c1 = .ok (19, -1) := by decide
    have hrows : taxblock doc_c1 = taxRows [] := by
      rw [taxblock, hI]
      exact congrArg taxRows (by decide)
    rw [hrows, taxRows]

/-- C1 (amended): when the tax block parser returns a mapping at all (the
positioning anchors resolve and every zipped row parses), its keys are
the present recognized labels truncated to the length of the computed
value region: exactly the present subset when the region provides at
least that many rows, and silently a proper prefix — not a failure —
when the region is shorter. -/
theorem C1_taxblock_truncation (lines : List String) (d : List (String × ℤ))
    (h : taxblock lines = .ok d) :
    d.map Prod.fst = (taxblock_keys lines).take (taxblockRegion lines).length ∧
    ((taxblock_keys lines).length ≤ (taxblockRegion lines).length →
      d.map Prod.fst = taxblock_keys lines) := by
  rw [taxblock] at h
  cases hI : taxblockIndices lines with
  | error e => rw [hI] at h; cases h
  | ok p =>
    obtain ⟨i1, i2⟩ := p
    rw [hI] at h
    have h2 : taxRows (zip3 (taxblock_keys lines)
        (pySlice lines i1 i2 ++ List.replicate
          ((pySlice lines i2 (i2 + (variable_number lines : ℤ))).length
            - (pySlice lines i1 i2).length) "")
        (pySlice lines i2 (i2 + (variable_number lines : ℤ)))) = .ok d := h
    have hreg : taxblockRegion lines
        = pySlice lines i2 (i2 + (variable_number lines : ℤ)) := by
      rw [taxblockRegion, hI]
    have hm := taxRows_map_fst _ d h2
    rw [zip3, map_fst_zip_take, List.length_zip, List.length_append,
      List.length_replicate] at hm
    have hmin : min ((pySlice lines i1 i2).length
        + ((pySlice lines i2 (i2 + (variable_number lines : ℤ))).length
          - (pySlice lines i1 i2).length))
        (pySlice lines i2 (i2 + (variable_number lines : ℤ))).length
        = (pySlice lines i2 (i2 + (variable_number lines : ℤ))).length := by
      omega
    rw [hmin] at hm
    rw [hreg]
    exact ⟨hm, fun hle => by rw [hm]; exact List.take_of_length_le hle⟩

/-- Document with two present labels (Social security, Health insurance)
and a well-formed two-row value region holding 100 and 200. -/
def doc_w : List String :=
  ["Social security", "Health insurance", "Sick payments", "x", "x", "x", "x", "x",
   "", "", "100", "200", "x", "x", "x", "1/1"]

/-- C1 witness: on `doc_w` the parser succeeds with the value region
covering both present labels, and the amended theorem yields that the
result is keyed exactly by the present subset. -/
theorem C1_taxblock_truncation_witness :
    taxblock doc_w = .ok [(TEXT_TAX_SOCIAL, 100), (TEXT_TAX_HEALTH, 200)] ∧
    [(TEXT_TAX_SOCIAL, (100 : ℤ)), (TEXT_TAX_HEALTH, 200)].map Prod.fst
      = taxblock_keys doc_w := by
  have h100 : clean_num ("" ++ "100") = .ok (100 : ℤ) := by
    rw [clean_num_digits ("" ++ "100") (by decide) (by decide)]
    decide
  have h200 : clean_num ("" ++ "200") = .ok (200 : ℤ) := by
    rw [clean_num_digits ("" ++ "200") (by decide) (by decide)]
    decide
  have e1 : taxblockRow TEXT_TAX_SOCIAL "" "100" = .ok 100 := by
    rw [taxblockRow, h100]
  have e2 : taxblockRow TEXT_TAX_HEALTH "" "200" = .ok 200 := by
    rw [taxblockRow, h200]
  have hI : taxblockIndices doc_w = .ok (8, 10) := by decide
  have hrows : taxblock doc_w
      = taxRows [(TEXT_TAX_SOCIAL, "", "100"), (TEXT_TAX_HEALTH, "", "200")] := by
    rw [taxblock, hI]
    exact congrArg taxRows (by decide)
  have hval : taxblock doc_w = .ok [(TEXT_TAX_SOCIAL, 100), (TEXT_TAX_HEALTH, 200)] := by
    rw [hrows]
    simp [taxRows, e1, e2]
  exact ⟨hval, (C1_taxblock_truncation doc_w _ hval).2 (by decide)⟩

theorem runLenA_all_match : ∀ (ls : List String), (∀ s ∈ ls, matchesAny s = true) →
    runLenA ls = none
  | [], _ => rfl
  | s :: rest, h => by
    rw [runLenA, if_pos (h s (List.mem_cons_self s rest)),
      runLenA_all_match rest (fun x hx => h x (List.mem_cons_of_mem s hx))]
    rfl

theorem runLenA_le : ∀ (ls : List String) (n : ℕ), runLenA ls = some n → n ≤ ls.length
  | [], n, h => by rw [runLenA] at h; cases h
  | s :: rest, n, h => by
    rw [runLenA] at h
    by_cases hm : matchesAny s = true
    · rw [if_pos hm] at h
      cases hr : runLenA rest with
      | none => rw [hr] at h; cases h
      | some m =>
        rw [hr] at h
        cases h
        have := runLenA_le rest m hr
        simp only [List.length_cons]
        omega
    · rw [if_neg hm] at h
      cases h
      simp

theorem scanBList_all_match : ∀ (ls : List String), (∀ s ∈ ls, matchesAny s = true) →
    ∃ e, scanBList ls = .error e
  | [], _ => ⟨.indexError, rfl⟩
  | [s], h => ⟨.indexError, by simp [scanBList, h s (List.mem_cons_self s _)]⟩
  | [s, b], h => ⟨.indexError, by simp [scanBList, h s (List.mem_cons_self s _)]⟩
  | [s, b, c], h => ⟨.indexError, by simp [scanBList, h s (List.mem_cons_self s _)]⟩
  | s :: b :: c :: d :: rest3, h => by
    obtain ⟨e, he⟩ := scanBList_all_match rest3 (fun x hx => h x (by simp [hx]))
    refine ⟨e, ?_⟩
    have hm := h s (by simp)
    simp only [scanBList, hm, if_true]
    rw [he]

theorem scanBList_len : ∀ (ls : List String) (es : List (String × String × String)),
    scanBList ls = .ok es → es.length ≤ ls.length
  | [], es, h => by rw [scanBList] at h; cases h
  | [s], es, h => by
    by_cases hm : matchesAny s = true
    · simp [scanBList, hm] at h
    · simp [scanBList, hm] at h
      subst h
      simp
  | [s, b], es, h => by
    by_cases hm : matchesAny s = true
    · simp [scanBList, hm] at h
    · simp [scanBList, hm] at h
      subst h
      simp
  | [s, b, c], es, h => by
    by_cases hm : matchesAny s = true
    · simp [scanBList, hm] at h
    · simp [scanBList, hm] at h
      subst h
      simp
  | s :: b :: c :: d :: rest3, es, h => by
    by_cases hm : matchesAny s = true
    · simp only [scanBList, hm, if_true] at h
      cases hr : scanBList rest3 with
      | error e => rw [hr] at h; cases h
      | ok es2 =>
        rw [hr] at h
        cases h
        have := scanBList_len rest3 es2 hr
        simp only [List.length_cons]
        omega
    · simp [scanBList, hm] at h
      subst h
      simp

theorem scanBList_fake : ∀ (ls : List String) (es : List (String × String × String)),
    scanBList ls = .ok es → ∀ e ∈ es, e.2.1 = "0:0fake"
  | [], es, h => by rw [scanBList] at h; cases h
  | [s], es, h => by
    by_cases hm : matchesAny s = true
    · simp [scanBList, hm] at h
    · simp [scanBList, hm] at h
      subst h
      simp
  | [s, b], es, h => by
    by_cases hm : matchesAny s = true
    · simp [scanBList, hm] at h
    · simp [scanBList, hm] at h
      subst h
      simp
  | [s, b, c], es, h => by
    by_cases hm : matchesAny s = true
    · simp [scanBList, hm] at h
    · simp [scanBList, hm] at h
      subst h
      simp
  | s :: b :: c :: d :: rest3, es, h => by
    by_cases hm : matchesAny s = true
    · simp only [scanBList, hm, if_true] at h
      cases hr : scanBList rest3 with
      | error e => rw [hr] at h; cases h
      | ok es2 =>
        rw [hr] at h
        cases h
        intro e he
        rcases List.mem_cons.mp he with h1 | h1
        · rw [h1]
        · exact scanBList_fake rest3 es2 hr e h1
    · simp [scanBList, hm] at h
      subst h
      simp

/-- C3: on a document whose lines all match the entry-classification
patterns (so the run never hits a non-matching line before the end of
the document), the holiday block parser terminates with a fatal error
rather than looping; moreover both the Variant A run scan and the
Variant B fixed-stride scan are bounded by the length of the scanned
document suffix. -/
theorem C3_bounded_termination (lines : List String)
    (h : ∀ s ∈ lines, matchesAny s = true) :
    (∃ e, holidayblock lines = .error e) ∧
    (∀ (ls : List String) (n : ℕ), runLenA ls = some n → n ≤ ls.length) ∧
    (∀ (ls : List String) (es : List (String × String × String)),
        scanBList ls = .ok es → es.length ≤ ls.length) := by
  refine ⟨?_, runLenA_le, scanBList_len⟩
  rcases hI : index_in lines TEXT_ILLNESS with e | k
  · exact ⟨e, by simp only [holidayblock, hI]⟩
  · rcases hP : pyGet lines (k + 1) with e | probe
    · exact ⟨e, by simp only [holidayblock, hI, hP]⟩
    · by_cases hB : probe = TEXT_BASE
      · have hnone : runLenA (lines.drop (k + 1)) = none :=
          runLenA_all_match _ (fun x hx => h x (List.mem_of_mem_drop hx))
        exact ⟨.indexError, by simp [holidayblock, hI, hP, hB, hnone]⟩
      · rcases hT : index_in lines TEXT_TAX_BASE with e | tb
        · exact ⟨e, by simp [holidayblock, hI, hP, hT, hB]⟩
        · obtain ⟨e, he⟩ := scanBList_all_match (lines.drop (tb + 2))
            (fun x hx => h x (List.mem_of_mem_drop hx))
          exact ⟨e, by simp [holidayblock, hI, hP, hT, hB, he]⟩

/-- Document on which every line matches a classification pattern, so
the Variant A run scan reaches the end of the document. -/
def doc_loop : List String :=
  ["Base salaryIllness", "Base salary", "Bonus CZK 100", "Omluvena"]

/-- C3 witness: on `doc_loop` every line matches, and the parser indeed
stops with an error inside the document bounds. -/
theorem C3_bounded_termination_witness :
    (∀ s ∈ doc_loop, matchesAny s = true) ∧ (∃ e, holidayblock doc_loop = .error e) :=
  ⟨by decide, (C3_bounded_termination doc_loop (by decide)).1⟩

theorem hoursFold_fake : ∀ (es : List (String × String × String)),
    (∀ e ∈ es, e.2.1 = "0:0fake") → ∀ (acc : ℤ), hoursFold es acc = .ok acc
  | [], _, acc => rfl
  | (d, hrs, c) :: rest, h, acc => by
    have hh : hrs = "0:0fake" := h (d, hrs, c) (List.mem_cons_self _ _)
    subst hh
    rw [hoursFold]
    by_cases hm : re_holiday_match d = true
    · rw [if_pos hm]
      have hc : clean_hours "0:0fake" = .ok 0 := by decide
      rw [hc]
      show hoursFold rest (acc + 0) = .ok acc
      rw [add_zero]
      exact hoursFold_fake rest (fun x hx => h x (List.mem_cons_of_mem _ hx)) acc
    · rw [if_neg hm]
      exact hoursFold_fake rest (fun x hx => h x (List.mem_cons_of_mem _ hx)) acc

/-- C10: on a document parsed through the fallback Variant B branch,
every extracted holiday entry carries the literal hours sentinel
"0:0fake", and consequently the holiday-hours aggregate is 0 however
many entries there are. -/
theorem C10_variantB_zero_hours (lines : List String) (k : ℕ) (probe : String)
    (entries : List (String × String × String))
    (h1 : index_in lines TEXT_ILLNESS = .ok k)
    (h2 : pyGet lines (k + 1) = .ok probe)
    (h3 : probe ≠ TEXT_BASE)
    (h4 : holidayblock lines = .ok entries) :
    (∀ e ∈ entries, e.2.1 = "0:0fake") ∧ hours_holiday lines = .ok 0 := by
  have h5 := h4
  simp only [holidayblock, h1, h2] at h5
  rw [if_pos h3] at h5
  cases hT : index_in lines TEXT_TAX_BASE with
  | error e => rw [hT] at h5; cases h5
  | ok tb =>
    rw [hT] at h5
    have hfake := scanBList_fake _ _ h5
    refine ⟨hfake, ?_⟩
    rw [hours_holiday, h4]
    show hoursFold entries 0 = .ok 0
    exact hoursFold_fake entries hfake 0

/-- Document exercising the Variant B branch with one holiday entry. -/
def doc_b : List String :=
  ["Illness", "x", "Tax base", "x", "Holiday 2d", "y", "1 234", "z", "stop"]

/-- C10 witness: a concrete Variant B document yields one entry carrying
the sentinel and a zero holiday-hours aggregate. -/
theorem C10_variantB_zero_hours_witness :
    holidayblock doc_b = .ok [("Holiday 2d", "0:0fake", "1 234")] ∧
    hours_holiday doc_b = .ok 0 := by
  have h4 : holidayblock doc_b = .ok [("Holiday 2d", "0:0fake", "1 234")] := by decide
  exact ⟨h4, (C10_variantB_zero_hours doc_b 0 "x" _ (by decide) (by decide)
    (by decide) h4).2⟩

theorem digitChar_isDigit {d : ℕ} (h : d < 10) : (digitChar d).isDigit = true := by
  interval_cases d <;> decide

theorem digitVal_digitChar {d : ℕ} (h : d < 10) : digitVal (digitChar d) = d := by
  interval_cases d <;> decide

theorem natDigits_all_digit (n : ℕ) : allDigits (natDigits n) = true := by
  rw [natDigits]
  by_cases h : n = 0
  · rw [if_pos h]; decide
  · rw [if_neg h]
    rw [allDigits, List.all_eq_true]
    intro c hc
    rw [List.mem_reverse] at hc
    obtain ⟨d, hd, rfl⟩ := List.mem_map.mp hc
    exact digitChar_isDigit (Nat.digits_lt_base (by norm_num) hd)

theorem natDigits_ne_nil (n : ℕ) : natDigits n ≠ [] := by
  rw [natDigits]
  by_cases h : n = 0
  · rw [if_pos h]; simp
  · rw [if_neg h]
    simp [Nat.digits_ne_nil_iff_ne_zero.mpr h]

theorem digitsVal_append (l : List Char) (c : Char) :
    digitsVal (l ++ [c]) = 10 * digitsVal l + digitVal c := by
  rw [digitsVal, digitsVal, List.foldl_append]
  rfl

theorem digitsVal_digits : ∀ (ds : List ℕ), (∀ d ∈ ds, d < 10) →
    digitsVal ((ds.map digitChar).reverse) = Nat.ofDigits 10 ds
  | [], _ => by simp [digitsVal, Nat.ofDigits_nil]
  | d :: ds, h => by
    rw [List.map_cons, List.reverse_cons, digitsVal_append,
      digitsVal_digits ds (fun x hx => h x (List.mem_cons_of_mem _ hx)),
      digitVal_digitChar (h d (List.mem_cons_self _ _)), Nat.ofDigits_cons]
    ring

theorem natDigits_val (n : ℕ) : digitsVal (natDigits n) = n := by
  rw [natDigits]
  by_cases h : n = 0
  · rw [if_pos h, h]; decide
  · rw [if_neg h, digitsVal_digits _ (fun d hd => Nat.digits_lt_base (by norm_num) hd)]
    exact_mod_cast Nat.ofDigits_digits 10 n

theorem filter_group3Rev : ∀ (m : List Char),
    (group3Rev m).filter (fun c => c ≠ ' ') = m.filter (fun c => c ≠ ' ')
  | [] => rfl
  | [a] => rfl
  | [a, b] => rfl
  | [a, b, c] => rfl
  | a :: b :: c :: d :: rest => by
    have ih := filter_group3Rev (d :: rest)
    simp only [group3Rev, List.filter_cons, ih]
    norm_num

theorem filter_space_digits {l : List Char} (h : allDigits l = true) :
    l.filter (fun c => c ≠ ' ') = l :=
  List.filter_eq_self.mpr (List.all_eq_true.mp (all_ne_of_allDigits (by decide) h))

theorem filter_space_group3 {D : List Char} (hD : allDigits D = true) :
    ((group3Rev D.reverse).reverse).filter (fun c => c ≠ ' ') = D := by
  rw [List.filter_reverse, filter_group3Rev, List.filter_reverse, List.reverse_reverse,
    filter_space_digits hD]

theorem map_commaDot_digits : ∀ (l : List Char), allDigits l = true →
    l.map (fun c => if c = ',' then '.' else c) = l
  | [], _ => rfl
  | c :: cs, h => by
    rw [allDigits, List.all_cons, Bool.and_eq_true] at h
    rw [List.map_cons, if_neg (ne_of_isDigit (by decide) h.1),
      map_commaDot_digits cs h.2]

/-- Decomposition of the normalized character list of a formatted
amount: an optional minus sign, the bare digits of the absolute value,
and an optional ".00" tail. -/
theorem normalize_format (x : ℤ) (b : Bool) :
    normalize_amount (format_czk_style x b)
      = (if x < 0 then ['-'] else []) ++ natDigits x.natAbs
        ++ (if b then ['.', '0', '0'] else []) := by
  have hD := natDigits_all_digit x.natAbs
  rw [normalize_amount, format_czk_style]
  have htl : ((if x < 0 then "-" else "")
      ++ String.mk ((group3Rev (natDigits x.natAbs).reverse).reverse)
      ++ (if b then ",00" else "")).toList
      = (if x < 0 then ['-'] else []) ++ (group3Rev (natDigits x.natAbs).reverse).reverse
        ++ (if b then [',', '0', '0'] else []) := by
    by_cases hx : x < 0 <;> cases b <;> simp [hx]
  rw [htl]
  rw [List.filter_append, List.filter_append, List.map_append, List.map_append]
  congr 1
  · congr 1
    · by_cases hx : x < 0 <;> simp [hx]
    · rw [filter_space_group3 hD, map_commaDot_digits _ hD]
  · cases b <;> simp

theorem pyFloat_stripped {cs : List Char} {neg : Bool} {body : List Char}
    (hs : stripSign cs = (neg, body)) (h1 : allDigits body = true) (h2 : body ≠ []) :
    pyFloat cs = some (applySign neg ((digitsVal body : ℕ) : ℚ)) := by
  have hne : body.all (fun c => c ≠ '.') = true := all_ne_of_allDigits (by decide) h1
  rw [pyFloat]
  rw [hs]
  simp only [takeWhile_all_eq hne, dropWhile_all_eq_nil hne]
  rw [if_pos]
  rw [h1]
  simp [h2]

theorem pyFloat_stripped_frac {cs : List Char} {neg : Bool} {l1 l2 : List Char}
    (hs : stripSign cs = (neg, l1 ++ '.' :: l2)) (h1 : allDigits l1 = true)
    (h2 : allDigits l2 = true) (h3 : l1 ≠ []) :
    pyFloat cs
      = some (applySign neg ((digitsVal l1 : ℚ) + (digitsVal l2 : ℚ) / 10 ^ l2.length)) := by
  have hne : l1.all (fun c => c ≠ '.') = true := all_ne_of_allDigits (by decide) h1
  rw [pyFloat]
  rw [hs]
  simp only [takeWhile_append_all _ _ hne, dropWhile_append_all _ _ hne,
    List.takeWhile_cons, List.dropWhile_cons]
  norm_num
  intro h
  exact absurd (h h1 h2).1 h3

theorem natAbs_cast_of_neg {x : ℤ} (hx : x < 0) : ((x.natAbs : ℕ) : ℚ) = -((x : ℤ) : ℚ) := by
  rw [Int.cast_natAbs, abs_of_neg hx]
  push_cast
  ring

theorem natAbs_cast_of_nonneg {x : ℤ} (hx : ¬x < 0) : ((x.natAbs : ℕ) : ℚ) = ((x : ℤ) : ℚ) := by
  rw [Int.cast_natAbs, abs_of_nonneg (not_lt.mp hx)]

/-- Round trip of the amount parser over the spec-modelled Czech-style
formatter, for every integer, with and without decimals. -/
theorem clean_num_format (x : ℤ) (b : Bool) : clean_num (format_czk_style x b) = .ok x := by
  have hD := natDigits_all_digit x.natAbs
  have hDne := natDigits_ne_nil x.natAbs
  have hval := natDigits_val x.natAbs
  have h00 : digitsVal ['0', '0'] = 0 := by decide
  rw [clean_num, normalize_format]
  by_cases hx : x < 0
  · rw [if_pos hx]
    cases b
    · rw [if_neg (by simp)]
      have hs : stripSign (['-'] ++ natDigits x.natAbs ++ [])
          = (true, natDigits x.natAbs) := by simp [stripSign]
      rw [pyFloat_stripped hs hD hDne, hval]
      have hq : applySign true ((x.natAbs : ℕ) : ℚ) = ((x : ℤ) : ℚ) := by
        rw [applySign, if_pos rfl, natAbs_cast_of_neg hx]
        ring
      rw [hq]
      show Except.ok (pyRound ((x : ℤ) : ℚ)) = Except.ok x
      rw [pyRound_intCast]
    · rw [if_pos rfl]
      have hs : stripSign (['-'] ++ natDigits x.natAbs ++ ['.', '0', '0'])
          = (true, natDigits x.natAbs ++ '.' :: ['0', '0']) := by simp [stripSign]
      rw [pyFloat_stripped_frac hs hD (by decide) hDne, hval, h00]
      have hq : applySign true (((x.natAbs : ℕ) : ℚ) + ((0 : ℕ) : ℚ) / 10 ^ (['0', '0'].length))
          = ((x : ℤ) : ℚ) := by
        rw [applySign, if_pos rfl, natAbs_cast_of_neg hx]
        push_cast
        ring
      rw [hq]
      show Except.ok (pyRound ((x : ℤ) : ℚ)) = Except.ok x
      rw [pyRound_intCast]
  · rw [if_neg hx]
    cases b
    · rw [if_neg (by simp)]
      have hs : stripSign ([] ++ natDigits x.natAbs ++ [])
          = (false, natDigits x.natAbs) := by
        simp only [List.nil_append, List.append_nil]
        cases hnd : natDigits x.natAbs with
        | nil => exact absurd hnd hDne
        | cons c cs =>
          rw [← hnd]
          rw [hnd] at hD
          rw [allDigits, List.all_cons, Bool.and_eq_true] at hD
          rw [hnd]
          exact stripSign_cons_digit cs hD.1
      rw [pyFloat_stripped hs hD hDne, hval]
      have hq : applySign false ((x.natAbs : ℕ) : ℚ) = ((x : ℤ) : ℚ) := by
        rw [applySign, if_neg (by simp), natAbs_cast_of_nonneg hx]
      rw [hq]
      show Except.ok (pyRound ((x : ℤ) : ℚ)) = Except.ok x
      rw [pyRound_intCast]
    · rw [if_pos rfl]
      have hs : stripSign ([] ++ natDigits x.natAbs ++ ['.', '0', '0'])
          = (false, natDigits x.natAbs ++ '.' :: ['0', '0']) := by
        simp only [List.nil_append]
        cases hnd : natDigits x.natAbs with
        | nil => exact absurd hnd hDne
        | cons c cs =>
          rw [hnd] at hD
          rw [allDigits, List.all_cons, Bool.and_eq_true] at hD
          rw [List.cons_append]
          exact stripSign_cons_digit _ hD.1
      rw [pyFloat_stripped_frac hs hD (by decide) hDne, hval, h00]
      have hq : applySign false (((x.natAbs : ℕ) : ℚ) + ((0 : ℕ) : ℚ) / 10 ^ (['0', '0'].length))
          = ((x : ℤ) : ℚ) := by
        rw [applySign, if_neg (by simp), natAbs_cast_of_nonneg hx]
        push_cast
        ring
      rw [hq]
      show Except.ok (pyRound ((x : ℤ) : ℚ)) = Except.ok x
      rw [pyRound_intCast]

theorem pyFloat_none_iff (cs : List Char) :
    pyFloat cs = none ↔ isNumericChars cs = false := by
  rw [pyFloat, isNumericChars]
  cases hdw : (stripSign cs).2.dropWhile (fun c => c ≠ '.') with
  | nil =>
    simp only [hdw]
    by_cases hc : (allDigits ((stripSign cs).2.takeWhile (fun c => c ≠ '.'))
        && !((stripSign cs).2.takeWhile (fun c => c ≠ '.')).isEmpty) = true
    · simp [hc]
    · simp only [Bool.not_eq_true] at hc
      simp [hc]
  | cons c fp =>
    simp only [hdw]
    by_cases hc : (allDigits ((stripSign cs).2.takeWhile (fun c => c ≠ '.'))
        && allDigits fp
        && (!((stripSign cs).2.takeWhile (fun c => c ≠ '.')).isEmpty || !fp.isEmpty)) = true
    · simp [hc]
    · simp only [Bool.not_eq_true] at hc
      simp [hc]

theorem clean_num_error_iff (s : String) :
    (∃ e, clean_num s = .error e) ↔ isNumericChars (normalize_amount s) = false := by
  rw [clean_num]
  cases hp : pyFloat (normalize_amount s) with
  | none =>
    simp only [hp]
    constructor
    · intro _
      exact (pyFloat_none_iff _).mp hp
    · intro _
      exact ⟨.valueError s, rfl⟩
  | some q =>
    simp only [hp]
    constructor
    · rintro ⟨e, he⟩
      cases he
    · intro hnum
      have h2 := (pyFloat_none_iff (normalize_amount s)).mpr hnum
      rw [hp] at h2
      cases h2

/-- C8: every Czech-locale formatted integer round-trips through the
amount parser — in particular "12 345,00" parses to 12345 and "1 234"
to 1234 — and the parser fails (with a ParseError) exactly when the
token, after stripping spaces and replacing the decimal comma, is not a
numeric token. -/
theorem C8_amount_roundtrip (x : ℤ) (b : Bool) (s : String) :
    clean_num (format_czk_style x b) = .ok x ∧
    clean_num "12 345,00" = .ok 12345 ∧
    clean_num "1 234" = .ok 1234 ∧
    ((∃ e, clean_num s = .error e) ↔ isNumericChars (normalize_amount s) = false) := by
  refine ⟨clean_num_format x b, ?_, ?_, clean_num_error_iff s⟩
  · have hn : normalize_amount "12 345,00" = ['1', '2', '3', '4', '5'] ++ '.' :: ['0', '0'] := by
      decide
    have hp : pyFloat (['1', '2', '3', '4', '5'] ++ '.' :: ['0', '0'])
        = some ((digitsVal ['1', '2', '3', '4', '5'] : ℚ)
          + (digitsVal ['0', '0'] : ℚ) / 10 ^ (['0', '0'] : List Char).length) :=
      pyFloat_digits_frac (by decide) (by decide) (by decide)
    have hd1 : digitsVal ['1', '2', '3', '4', '5'] = 12345 := by decide
    have hd2 : digitsVal ['0', '0'] = 0 := by decide
    rw [hd1, hd2] at hp
    rw [clean_num, hn, hp]
    have hq : ((12345 : ℕ) : ℚ) + ((0 : ℕ) : ℚ) / 10 ^ (['0', '0'].length)
        = ((12345 : ℤ) : ℚ) := by
      push_cast
      ring
    rw [hq]
    show Except.ok (pyRound ((12345 : ℤ) : ℚ)) = Except.ok 12345
    rw [pyRound_intCast]
  · rw [clean_num_digits "1 234" (by decide) (by decide)]
    decide

end Platext
